import Mathlib

/-!
Shallow embedding of the SPIMEX trading-results downloader
(`async_complete_db.py`, `parser_async.py`, `main.py`) together with
theorems about the crawl driver, the download-and-ingest worker, the
record extractor and the persister.
-/

/-! ## Dates (`datetime.date`) -/

/-- A calendar date, as produced by `datetime.datetime.strptime(...).date()`. -/
structure Date where
  year : Nat
  month : Nat
  day : Nat
deriving Repr, DecidableEq

/-- Zero-padded two-digit numeral, as in Python's ISO date formatting. -/
def pad2 (n : Nat) : String :=
  if n < 10 then "0" ++ toString n else toString n

/-- Zero-padded four-digit numeral, as in Python's ISO date formatting. -/
def pad4 (n : Nat) : String :=
  if n < 10 then "000" ++ toString n
  else if n < 100 then "00" ++ toString n
  else if n < 1000 then "0" ++ toString n
  else toString n

/-- Python `str(trade_date)` for a `datetime.date`: the ISO form `YYYY-MM-DD`. -/
def isoDate (d : Date) : String :=
  pad4 d.year ++ "-" ++ pad2 d.month ++ "-" ++ pad2 d.day

/-- Python `date` comparison `a <= b`: lexicographic on (year, month, day). -/
def dateLe (a b : Date) : Bool :=
  decide (a.year < b.year) ||
    (decide (a.year = b.year) && (decide (a.month < b.month) ||
      (decide (a.month = b.month) && decide (a.day ≤ b.day))))

/-- Python `date` comparison `a < b`: lexicographic on (year, month, day). -/
def dateLt (a b : Date) : Bool :=
  decide (a.year < b.year) ||
    (decide (a.year = b.year) && (decide (a.month < b.month) ||
      (decide (a.month = b.month) && decide (a.day < b.day))))

/-- The crawl cutoff `datetime.datetime(2023, 1, 1).date()`. -/
def cutoff2023 : Date := ⟨2023, 1, 1⟩

/-! ## Spreadsheet cells -/

/-- A pandas cell value: missing (`NaN`/`None`), a string, or a number. -/
inductive Cell
  | na
  | str (s : String)
  | num (q : Rat)
deriving Repr, DecidableEq

/-- A spreadsheet as `pd.read_excel(..., header=None)` yields it: the raw
grid of cells, row by row. -/
structure Sheet where
  rows : List (List Cell)
deriving Repr, DecidableEq

/-! ## Numeric coercion (`pd.to_numeric`) -/

/-- The numeric value of a list of decimal digit characters. -/
def digitsToNat (cs : List Char) : Nat :=
  cs.foldl (fun a c => a * 10 + (c.toNat - '0'.toNat)) 0

/-- Numeric reading of a character list: an optional sign followed by a
decimal numeral, optionally with one decimal point (plain decimal forms;
exponent forms are not modelled). -/
def parseNumCore (cs : List Char) : Option Rat :=
  let signed : Bool × List Char :=
    match cs with
    | '-' :: rest => (true, rest)
    | '+' :: rest => (false, rest)
    | _ => (false, cs)
  let neg := signed.1
  let body := signed.2
  let intPart := body.takeWhile Char.isDigit
  let rest := body.dropWhile Char.isDigit
  match rest with
  | [] =>
    if intPart.isEmpty then none
    else
      let v : Rat := (digitsToNat intPart : Nat)
      some (if neg then -v else v)
  | '.' :: frac =>
    if frac.all Char.isDigit && !(intPart.isEmpty && frac.isEmpty) then
      let v : Rat := ((digitsToNat (intPart ++ frac) : Nat) : Rat) / ((10 : Rat) ^ frac.length)
      some (if neg then -v else v)
    else none
  | _ => none

/-- Strip surrounding whitespace, as numeric string conversion does. -/
def trimChars (cs : List Char) : List Char :=
  ((cs.dropWhile Char.isWhitespace).reverse.dropWhile Char.isWhitespace).reverse

/-- String-to-number reading used by `pd.to_numeric` on string cells. -/
def parseNum (s : String) : Option Rat := parseNumCore (trimChars s.toList)

/-- Lenient `pd.to_numeric` on a cell: non-coercible values become
missing instead of erroring. -/
def toNumCoerce : Cell → Cell
  | .na => .na
  | .num q => .num q
  | .str s =>
    match parseNum s with
    | some q => .num q
    | none => .na

/-- Strict `pd.to_numeric` on a cell, the default mode: a non-coercible
string raises, carrying the offending value. -/
def toNumStrict1 : Cell → Except String Cell
  | .na => .ok .na
  | .num q => .ok (.num q)
  | .str s =>
    match parseNum s with
    | some q => .ok (.num q)
    | none => .error s

/-- Strict `pd.to_numeric` over a whole column: fails on the first
non-coercible value. -/
def strictCol : List Cell → Except String (List Cell)
  | [] => .ok []
  | c :: cs =>
    match toNumStrict1 c with
    | .error s => .error s
    | .ok c' =>
      match strictCol cs with
      | .error s => .error s
      | .ok cs' => .ok (c' :: cs')

/-! ## Record extractor (`parser_async.get_data`) -/

/-- The measurement-unit marker searched for cell-by-cell. -/
def markerStr : String := "Единица измерения: Метрическая тонна"

/-- Column label of the contract-count column. -/
def countCol : String := "Количество\nДоговоров,\nшт."

/-- Column label of the instrument-name column. -/
def nameCol : String := "Наименование\nИнструмента"

/-- Column label of the instrument-code column. -/
def idCol : String := "Код\nИнструмента"

/-- Column label of the delivery-basis column. -/
def basisCol : String := "Базис\nпоставки"

/-- Column label of the volume column. -/
def volCol : String := "Объем\nДоговоров\nв единицах\nизмерения"

/-- Column label of the total (rubles) column. -/
def totCol : String := "Обьем\nДоговоров,\nруб."

/-- Does a row contain a cell equal to the measurement-unit marker?
This is the inner loop of `get_data`'s cell scan. -/
def rowHasMarker (r : List Cell) : Bool :=
  r.any (fun c => c == Cell.str markerStr)

/-- Index of the first row containing the marker (the outer loop of
`get_data`'s row-major scan, breaking at the first match). -/
def firstMarkerRow : List (List Cell) → Option Nat
  | [] => none
  | r :: rs =>
    if rowHasMarker r then some 0
    else (firstMarkerRow rs).map (· + 1)

/-- Index of the first header cell equal to the given column label
(`df[label]` column lookup). -/
def colIdx (header : List Cell) (label : String) : Option Nat :=
  match header with
  | [] => none
  | c :: cs =>
    if c == Cell.str label then some 0
    else (colIdx cs label).map (· + 1)

/-- Pad a data row with missing cells up to the header width, as pandas
does when building a `DataFrame` from a ragged sheet. -/
def padRow (n : Nat) (r : List Cell) : List Cell :=
  r ++ List.replicate (n - r.length) Cell.na

/-- The header row used by `pd.read_excel(..., header=hIdx)`. -/
def headerOf (sheet : Sheet) (hIdx : Nat) : List Cell :=
  sheet.rows.getD hIdx []

/-- The data rows below the header row, padded to the header width. -/
def dataOf (sheet : Sheet) (hIdx : Nat) : List (List Cell) :=
  (sheet.rows.drop (hIdx + 1)).map (padRow (headerOf sheet hIdx).length)

/-- The assignment `df[countCol] = pd.to_numeric(df[countCol],
errors='coerce')`, applied to every data row. -/
def coercedData (ci : Nat) (data : List (List Cell)) : List (List Cell) :=
  data.map (fun r => r.set ci (toNumCoerce (r.getD ci Cell.na)))

/-- Comparison `cell > 0` on a pandas value: true only for a positive number. -/
def cellPos : Cell → Bool
  | .num q => decide (0 < q)
  | _ => false

/-- Test `cell.notna()`: true unless the value is missing. -/
def cellNotNa : Cell → Bool
  | .na => false
  | _ => true

/-- The row filter `(df[countCol] > 0) & (df[nameCol].notna())`. -/
def passFilter (ci ni : Nat) (r : List Cell) : Bool :=
  cellPos (r.getD ci Cell.na) && cellNotNa (r.getD ni Cell.na)

/-- The `filtered_data` frame: count-coerced data rows passing the filter. -/
def filteredOf (sheet : Sheet) (hIdx ci ni : Nat) : List (List Cell) :=
  (coercedData ci (dataOf sheet hIdx)).filter (passFilter ci ni)

/-- Slicing `.str[:4]` on a pandas value: a slice for strings, missing otherwise. -/
def strTake4 : Cell → Cell
  | .str s => .str (s.take 4)
  | _ => .na

/-- Slicing `.str[4:7]` on a pandas value: a slice for strings, missing otherwise. -/
def strSlice47 : Cell → Cell
  | .str s => .str ((s.drop 4).take 3)
  | _ => .na

/-- Indexing `.str[-1]` on a pandas value: the last character of a non-empty
string, missing otherwise (out-of-bounds indexing yields `NaN`). -/
def strLast : Cell → Cell
  | .str s => if s.isEmpty then .na else .str (s.takeRight 1)
  | _ => .na

/-- A normalized trading-result record, one output row of `get_data`. -/
structure TRRow where
  exchange_product_id : Cell
  exchange_product_name : Cell
  oil_id : Cell
  delivery_basis_id : Cell
  delivery_basis_name : Cell
  delivery_type_id : Cell
  volume : Cell
  total : Cell
  count : Cell
  date : Option Date
  created_on : Nat
  updated_on : Nat
deriving Repr, DecidableEq

/-- One output row of the `spimex_trading_results` frame, built from a
filtered data row by the column mapping in `get_data`. -/
def buildRow (now : Nat) (d : Option Date) (ci ni ii bi vi ti : Nat)
    (r : List Cell) : TRRow :=
  { exchange_product_id := r.getD ii Cell.na
    exchange_product_name := r.getD ni Cell.na
    oil_id := strTake4 (r.getD ii Cell.na)
    delivery_basis_id := strSlice47 (r.getD ii Cell.na)
    delivery_basis_name := r.getD bi Cell.na
    delivery_type_id := strLast (r.getD ii Cell.na)
    volume := toNumCoerce (r.getD vi Cell.na)
    total := toNumCoerce (r.getD ti Cell.na)
    count := toNumCoerce (r.getD ci Cell.na)
    date := d
    created_on := now
    updated_on := now }

/-- Extraction failures: the missing-marker `ValueError`, a `KeyError`
for an absent column, and a strict `pd.to_numeric` failure. -/
inductive ExtractErr
  | markerNotFound
  | keyError (col : String)
  | numError (val : String)
deriving Repr, DecidableEq

/-- The part of `get_data` after the marker row has been located: re-read
with the identified header row, coerce the count column leniently, filter,
and build the output frame; column accesses and the strict numeric
coercions of the volume, total and count columns fail in program order. -/
def extractFrom (now : Nat) (d : Option Date) (sheet : Sheet) (hIdx : Nat) :
    Except ExtractErr (Option (List TRRow)) :=
  match colIdx (headerOf sheet hIdx) countCol with
  | none => .error (.keyError countCol)
  | some ci =>
    match colIdx (headerOf sheet hIdx) nameCol with
    | none => .error (.keyError nameCol)
    | some ni =>
      if (filteredOf sheet hIdx ci ni).isEmpty then .ok none
      else
        match colIdx (headerOf sheet hIdx) idCol with
        | none => .error (.keyError idCol)
        | some ii =>
          match colIdx (headerOf sheet hIdx) basisCol with
          | none => .error (.keyError basisCol)
          | some bi =>
            match colIdx (headerOf sheet hIdx) volCol with
            | none => .error (.keyError volCol)
            | some vi =>
              match strictCol ((filteredOf sheet hIdx ci ni).map (fun r => r.getD vi Cell.na)) with
              | .error s => .error (.numError s)
              | .ok _ =>
                match colIdx (headerOf sheet hIdx) totCol with
                | none => .error (.keyError totCol)
                | some ti =>
                  match strictCol ((filteredOf sheet hIdx ci ni).map (fun r => r.getD ti Cell.na)) with
                  | .error s => .error (.numError s)
                  | .ok _ =>
                    match strictCol ((filteredOf sheet hIdx ci ni).map (fun r => r.getD ci Cell.na)) with
                    | .error s => .error (.numError s)
                    | .ok _ =>
                      .ok (some ((filteredOf sheet hIdx ci ni).map (buildRow now d ci ni ii bi vi ti)))

/-- Model of `get_data(trade_date)`: `None` when the downloaded file is absent
(`FileNotFoundError`), a `ValueError` when the marker is never found,
otherwise extraction from the row below the first marker row. -/
def getData (now : Nat) (d : Option Date) (file : Option Sheet) :
    Except ExtractErr (Option (List TRRow)) :=
  match file with
  | none => .ok none
  | some sheet =>
    match firstMarkerRow sheet.rows with
    | none => .error .markerNotFound
    | some rowStart => extractFrom now d sheet (rowStart + 1)

/-! ## Persister (`parser_async.save_data_to_db`) -/

/-- External storage behaviour: whether constructing the ORM record for a
row raises, and whether the final commit raises. -/
structure SaveEnv where
  constructFails : TRRow → Bool
  commitFails : Bool

/-- The `for index, row in ...iterrows(): session.add(...)` loop: builds
up the session's pending records, or raises at the first failing
construction. -/
def addLoop (env : SaveEnv) : List TRRow → List TRRow → Option (List TRRow)
  | [], pending => some pending
  | r :: rs, pending =>
    if env.constructFails r then none
    else addLoop env rs (pending ++ [r])

/-- Model of `save_data_to_db(spimex_trading_results)`: one session, one
transaction; add every row, then commit once; any exception (including
`iterrows` on a `None` frame) is caught, the transaction rolled back, and
nothing propagates.  Returns the database rows after the call and whether
the commit succeeded. -/
def saveDataToDb (env : SaveEnv) (frame : Option (List TRRow))
    (db : List TRRow) : List TRRow × Bool :=
  match frame with
  | none => (db, false)
  | some rows =>
    match addLoop env rows [] with
    | none => (db, false)
    | some pending =>
      if env.commitFails then (db, false) else (db ++ pending, true)

/-! ## File downloader (`parser_async.download_file`) -/

/-- A dynamically typed Python value passed positionally to
`download_file` (the two call sites disagree on argument order). -/
inductive PyVal
  | dateV (d : Option Date)
  | strV (s : String)
deriving Repr, DecidableEq

/-- Python f-string interpolation of such a value. -/
def pyFStr : PyVal → String
  | .dateV none => "None"
  | .dateV (some d) => isoDate d
  | .strV s => s

/-- Network behaviour: HTTP status and (sheet decoded from the) body per
requested URL. -/
structure NetEnv where
  status : String → Nat
  body : String → Sheet

/-- Model of `session.get(x)`: succeeds for a string URL; a non-string (such as a
`datetime.date` passed by mistake) raises before any request is made. -/
def sessionGet (net : NetEnv) : PyVal → Except Unit (Nat × Sheet)
  | .strV s => .ok (net.status s, net.body s)
  | .dateV _ => .error ()

/-- Model of `download_file(session, trade_date, file_link)`: GET the link; on
status 200 write the body under `data/oil_bulletin{trade_date}.xls` and
return the written name and content; on any other status only log.
`.error` models an exception raised by `session.get`. -/
def downloadFile (net : NetEnv) (tradeDate fileLink : PyVal) :
    Except Unit (Option (String × Sheet)) :=
  match sessionGet net fileLink with
  | .error e => .error e
  | .ok (st, content) =>
    if st = 200 then
      .ok (some ("data/oil_bulletin" ++ pyFStr tradeDate ++ ".xls", content))
    else
      .ok none

/-- The file name `get_data` (and a correct `download_file` call) derives
from the queue item's trade date. -/
def fileNameOf (d : Option Date) : String :=
  "data/oil_bulletin" ++ pyFStr (.dateV d) ++ ".xls"

/-! ## Download-and-ingest worker (`async_complete_db.process_files`) -/

/-- Observable steps of one worker run. -/
inductive WEv
  | downloadSaved (name : String)
  | downloadFailed (st : Nat)
  | downloadRaised
  | extractionAttempted (name : String)
  | persistInvoked (frame : Option (List TRRow))
  | crashed (e : ExtractErr)
deriving Repr, DecidableEq

/-- Full environment of a worker run. -/
structure WorkerEnv where
  net : NetEnv
  save : SaveEnv
  now : Nat

/-- State after a worker run: the event trace, the files on disk, and the
database contents. -/
structure WorkerRun where
  events : List WEv
  fs : String → Option Sheet
  db : List TRRow

/-- Point update of the on-disk files. -/
def fsUpdate (fs : String → Option Sheet) (name : String) (sh : Sheet) :
    String → Option Sheet :=
  fun n => if n = name then some sh else fs n

/-- Model of `process_files(queue)`: repeatedly dequeue `(trade_date, link)`; stop
when `link` is `None`; otherwise download (failures only logged), then
always call `get_data` and pass its result to `save_data_to_db`.  An
exception escaping `get_data` kills the worker task.  The argument list
is the sequence of values the queue yields. -/
def processFiles (env : WorkerEnv) :
    List (Option Date × Option String) → (String → Option Sheet) →
    List TRRow → WorkerRun
  | [], fs, db => ⟨[], fs, db⟩
  | (d, link) :: rest, fs, db =>
    match link with
    | none => ⟨[], fs, db⟩
    | some url =>
      match downloadFile env.net (.dateV d) (.strV url) with
      | .error _ => ⟨[WEv.downloadRaised], fs, db⟩
      | .ok wrote =>
        let fs' := match wrote with
          | some (name, sh) => fsUpdate fs name sh
          | none => fs
        let ev1 := match wrote with
          | some (name, _) => WEv.downloadSaved name
          | none => WEv.downloadFailed (env.net.status url)
        let name := fileNameOf d
        match getData env.now d (fs' name) with
        | .error e => ⟨[ev1, WEv.extractionAttempted name, WEv.crashed e], fs', db⟩
        | .ok frame =>
          let saved := saveDataToDb env.save frame db
          let tail := processFiles env rest fs' saved.1
          ⟨ev1 :: WEv.extractionAttempted name :: WEv.persistInvoked frame :: tail.events,
            tail.fs, tail.db⟩

/-! ## Crawl driver (`async_complete_db.get_trading_all_dates_and_files`) -/

/-- Python `link.startswith(...)` with the literal `http`, on the character list. -/
def strStartsWith (s p : String) : Bool :=
  s.toList.take p.length == p.toList

/-- Search for the regex `_(\d{14})\.xls` at the head of a character
list: an underscore, exactly fourteen digits, then `.xls`. -/
def tsHere : List Char → Option (List Char)
  | '_' :: rest =>
    let ds := rest.take 14
    if ds.length == 14 && ds.all Char.isDigit &&
        (rest.drop 14).take 4 == ".xls".toList then
      some ds
    else none
  | _ => none

/-- Leftmost match of `_(\d{14})\.xls`, returning the captured digits. -/
def searchTsAux : List Char → Option String
  | [] => none
  | c :: cs =>
    match tsHere (c :: cs) with
    | some ds => some (String.mk ds)
    | none => searchTsAux cs

/-- Leftmost `re.search` of the timestamp pattern in a link, capture group 1. -/
def searchTs (s : String) : Option String := searchTsAux s.toList

/-- Leap-year rule of the Gregorian calendar. -/
def isLeap (y : Nat) : Bool :=
  (y % 4 == 0 && y % 100 != 0) || y % 400 == 0

/-- Days in a month, used by `strptime` validation. -/
def daysInMonth (y m : Nat) : Nat :=
  if m == 2 then (if isLeap y then 29 else 28)
  else if m == 4 || m == 6 || m == 9 || m == 11 then 30
  else 31

/-- Model of `datetime.datetime.strptime(s, ...)` with the 14-digit format, then `.date()`: on a
14-character digit string: validates the calendar fields and keeps the
date part; `none` models the `ValueError` raised on invalid input. -/
def strptime14 (s : String) : Option Date :=
  let cs := s.toList
  if cs.length == 14 && cs.all Char.isDigit then
    let y := digitsToNat (cs.take 4)
    let mo := digitsToNat ((cs.drop 4).take 2)
    let dy := digitsToNat ((cs.drop 6).take 2)
    let h := digitsToNat ((cs.drop 8).take 2)
    let mi := digitsToNat ((cs.drop 10).take 2)
    let sec := digitsToNat ((cs.drop 12).take 2)
    if 1 ≤ y ∧ 1 ≤ mo ∧ mo ≤ 12 ∧ 1 ≤ dy ∧ dy ≤ daysInMonth y mo ∧
        h ≤ 23 ∧ mi ≤ 59 ∧ sec ≤ 59 then
      some ⟨y, mo, dy⟩
    else none
  else none

/-- Search for the regex `page=page-(\d+)` at the head of a character
list, returning the numeric capture. -/
def pageNumHere (cs : List Char) : Option Nat :=
  if cs.take 10 == "page=page-".toList then
    let ds := (cs.drop 10).takeWhile Char.isDigit
    if ds.isEmpty then none else some (digitsToNat ds)
  else none

/-- Leftmost match of `page=page-(\d+)`. -/
def searchPageNumAux : List Char → Option Nat
  | [] => none
  | c :: cs =>
    match pageNumHere (c :: cs) with
    | some n => some n
    | none => searchPageNumAux cs

/-- Leftmost `re.search` of the page-number pattern, as an integer. -/
def searchPageNum (s : String) : Option Nat := searchPageNumAux s.toList

/-- What the crawl sees per fetched listing page: the hrefs of the
bulletin link tags in page order, and the href of the next-page control
when present.  `fetchPage n = none` models a fetch failure (or falsy
response body) for page `n`. -/
structure CrawlPage where
  links : List String
  nextHref : Option String

/-- Crawl environment: the listing pages and URL resolution
(`urljoin(URL, link)`) for scheme-relative hrefs. -/
structure CrawlEnv where
  fetchPage : Nat → Option CrawlPage
  resolve : String → String

/-- The per-page link loop: resolve each href, search for the embedded
timestamp (non-matching links are skipped), parse it; a date at or after
the cutoff is enqueued, an older date breaks out of the loop, and a
`ValueError` from `strptime` (second component `true`) aborts the crawl. -/
def scanLinks (env : CrawlEnv) : List String → List (Date × String) × Bool
  | [] => ([], false)
  | l :: ls =>
    match searchTs (if strStartsWith l "http" then l else env.resolve l) with
    | none => scanLinks env ls
    | some ds =>
      match strptime14 ds with
      | none => ([], true)
      | some td =>
        if dateLe cutoff2023 td then
          ((td, if strStartsWith l "http" then l else env.resolve l) :: (scanLinks env ls).1,
            (scanLinks env ls).2)
        else ([], false)

/-- Model of `get_trading_all_dates_and_files(queue)`: page through the listing
starting at page 1, enqueueing cutoff-respecting `(trade_date,
file_link)` pairs; stop on a fetch failure, an empty page, a missing or
malformed next-page control, or an uncaught `strptime` error.  Returns
the enqueued pairs in order; `fuel` bounds the number of page fetches. -/
def crawl (env : CrawlEnv) : Nat → Nat → List (Date × String)
  | 0, _ => []
  | fuel + 1, page =>
    match env.fetchPage page with
    | none => []
    | some pg =>
      if pg.links.isEmpty then []
      else
        let scanned := scanLinks env pg.links
        if scanned.2 then scanned.1
        else
          scanned.1 ++
            match pg.nextHref with
            | none => []
            | some href =>
              match searchPageNum href with
              | none => []
              | some n => crawl env fuel n

/-! ## Concrete fixtures -/

/-- A header row carrying all six column labels `get_data` accesses. -/
def exHeader : List Cell :=
  [Cell.str idCol, Cell.str nameCol, Cell.str basisCol, Cell.str volCol,
   Cell.str totCol, Cell.str countCol]

/-- A concrete trade date. -/
def d0 : Date := ⟨2023, 6, 1⟩

/-- A bulletin sheet with the marker, the header and one valid data row. -/
def exSheetGood : Sheet :=
  ⟨[[Cell.str markerStr],
    exHeader,
    [Cell.str "A100ANS060F", Cell.str "Бензин", Cell.str "ст. Аллагуват",
     Cell.num 10, Cell.num 100, Cell.num 5]]⟩

/-- The single output row extracted from `exSheetGood`. -/
def exRowGood : TRRow :=
  { exchange_product_id := Cell.str "A100ANS060F"
    exchange_product_name := Cell.str "Бензин"
    oil_id := Cell.str "A100"
    delivery_basis_id := Cell.str "ANS"
    delivery_basis_name := Cell.str "ст. Аллагуват"
    delivery_type_id := Cell.str "F"
    volume := Cell.num 10
    total := Cell.num 100
    count := Cell.num 5
    date := some d0
    created_on := 0
    updated_on := 0 }

/-- A bulletin sheet with the marker and the header but no data rows:
extraction filters down to nothing and reports "no data". -/
def emptySheet : Sheet :=
  ⟨[[Cell.str markerStr], exHeader]⟩


/-! ## Helper lemmas -/

theorem dateLe_imp_dateLt_false {a b : Date} (h : dateLe a b = true) :
    dateLt b a = false := by
  cases hlt : dateLt b a with
  | false => rfl
  | true =>
    exfalso
    simp only [dateLe, Bool.or_eq_true, Bool.and_eq_true, decide_eq_true_eq] at h
    simp only [dateLt, Bool.or_eq_true, Bool.and_eq_true, decide_eq_true_eq] at hlt
    omega

theorem addLoop_ok (env : SaveEnv) :
    ∀ (rows acc : List TRRow), (∀ r ∈ rows, env.constructFails r = false) →
      addLoop env rows acc = some (acc ++ rows) := by
  intro rows
  induction rows with
  | nil => intro acc h; simp [addLoop]
  | cons r rs ih =>
    intro acc h
    have hr : env.constructFails r = false := h r (by simp)
    simp only [addLoop, hr, Bool.false_eq_true, if_false]
    rw [ih (acc ++ [r]) (fun x hx => h x (by simp [hx]))]
    simp

theorem addLoop_some (env : SaveEnv) :
    ∀ (rows acc p : List TRRow), addLoop env rows acc = some p → p = acc ++ rows := by
  intro rows
  induction rows with
  | nil => intro acc p h; simp [addLoop] at h; simp [h.symm]
  | cons r rs ih =>
    intro acc p h
    simp only [addLoop] at h
    by_cases hr : env.constructFails r
    · simp [hr] at h
    · simp only [hr, Bool.false_eq_true, if_false] at h
      have := ih (acc ++ [r]) p h
      simpa using this

theorem addLoop_fail (env : SaveEnv) :
    ∀ (rows acc : List TRRow), (∃ r ∈ rows, env.constructFails r = true) →
      addLoop env rows acc = none := by
  intro rows
  induction rows with
  | nil => intro acc h; simp at h
  | cons r rs ih =>
    intro acc h
    simp only [addLoop]
    by_cases hr : env.constructFails r
    · simp [hr]
    · simp only [hr, Bool.false_eq_true, if_false]
      rcases h with ⟨x, hx, hfail⟩
      rcases List.mem_cons.mp hx with rfl | hx'
      · exact absurd hfail (by simpa using hr)
      · exact ih (acc ++ [r]) ⟨x, hx', hfail⟩

/-! ## Claim C10 -/

/-- Claim C10: the worker's sentinel test inspects only the second (link)
component of a dequeued pair, so `(some_date, None)` terminates the loop
exactly like `(None, None)`: nothing is processed, nothing changes. -/
theorem c10_sentinel_checks_only_link (env : WorkerEnv) (d : Option Date)
    (rest : List (Option Date × Option String)) (fs : String → Option Sheet)
    (db : List TRRow) :
    processFiles env ((some d0, none) :: rest) fs db = ⟨[], fs, db⟩ ∧
    processFiles env ((d, none) :: rest) fs db = ⟨[], fs, db⟩ ∧
    processFiles env ((d, none) :: rest) fs db =
      processFiles env ((none, none) :: rest) fs db := by
  exact ⟨rfl, rfl, rfl⟩

/-! ## Claim C5 -/

/-- Claim C5: the persister is all-or-nothing per batch: with every record
construction and the single commit succeeding the whole batch is appended,
while any construction or commit failure leaves the database unchanged;
in every case the database is either `db ++ rows` or `db`. -/
theorem c5_persister_all_or_nothing (env : SaveEnv) (rows db : List TRRow) :
    ((∀ r ∈ rows, env.constructFails r = false) → env.commitFails = false →
      saveDataToDb env (some rows) db = (db ++ rows, true)) ∧
    ((∃ r ∈ rows, env.constructFails r = true) ∨ env.commitFails = true →
      saveDataToDb env (some rows) db = (db, false)) ∧
    ((saveDataToDb env (some rows) db).1 = db ++ rows ∨
      (saveDataToDb env (some rows) db).1 = db) := by
  refine ⟨?_, ?_, ?_⟩
  · intro hc hk
    simp only [saveDataToDb, addLoop_ok env rows [] hc, List.nil_append, hk,
      Bool.false_eq_true, if_false]
  · intro h
    rcases h with h | h
    · simp only [saveDataToDb, addLoop_fail env rows [] h]
    · simp only [saveDataToDb]
      cases ha : addLoop env rows [] with
      | none => rfl
      | some p => simp [h]
  · simp only [saveDataToDb]
    cases ha : addLoop env rows [] with
    | none => simp
    | some p =>
      have hp := addLoop_some env rows [] p ha
      by_cases hk : env.commitFails
      · simp [hk]
      · simp [hk, hp]

/-- Witness for C5 at a concrete batch: a one-row batch with no failing
construction and a succeeding commit is appended whole. -/
theorem c5_witness :
    saveDataToDb ⟨fun _ => false, false⟩ (some [exRowGood]) [] = ([exRowGood], true) := by
  have h := (c5_persister_all_or_nothing ⟨fun _ => false, false⟩ [exRowGood] []).1
    (fun r hr => rfl) rfl
  simpa using h

/-! ## Claim C6 -/

theorem scanLinks_cutoff (env : CrawlEnv) :
    ∀ (ls : List String) (p : Date × String), p ∈ (scanLinks env ls).1 →
      dateLe cutoff2023 p.1 = true := by
  intro ls
  induction ls with
  | nil => intro p hp; simp [scanLinks] at hp
  | cons l ls ih =>
    intro p hp
    simp only [scanLinks] at hp
    cases h1 : searchTs (if strStartsWith l "http" then l else env.resolve l) with
    | none =>
      simp only [h1] at hp
      exact ih p hp
    | some ds =>
      simp only [h1] at hp
      cases h2 : strptime14 ds with
      | none => simp [h2] at hp
      | some td =>
        simp only [h2] at hp
        by_cases h3 : dateLe cutoff2023 td = true
        · rw [if_pos h3] at hp
          simp only [List.mem_cons] at hp
          rcases hp with rfl | hp'
          · exact h3
          · exact ih p hp'
        · rw [if_neg h3] at hp
          simp at hp

/-- Claim C6: in every crawl run, no pair whose trade date is strictly
earlier than 2023-01-01 is ever enqueued. -/
theorem c6_no_date_below_cutoff_enqueued (env : CrawlEnv) (fuel page : Nat)
    (p : Date × String) (hp : p ∈ crawl env fuel page) :
    dateLt p.1 cutoff2023 = false := by
  suffices h : dateLe cutoff2023 p.1 = true from dateLe_imp_dateLt_false h
  induction fuel generalizing page with
  | zero => simp [crawl] at hp
  | succ fuel ih =>
    simp only [crawl] at hp
    cases hf : env.fetchPage page with
    | none => rw [hf] at hp; simp at hp
    | some pg =>
      rw [hf] at hp
      by_cases he : pg.links.isEmpty
      · simp [he] at hp
      · simp only [he, Bool.false_eq_true, if_false] at hp
        by_cases hab : (scanLinks env pg.links).2
        · simp only [hab, if_true] at hp
          exact scanLinks_cutoff env pg.links p hp
        · simp only [hab, Bool.false_eq_true, if_false] at hp
          rcases List.mem_append.mp hp with hp' | hp'
          · exact scanLinks_cutoff env pg.links p hp'
          · split at hp'
            · simp at hp'
            · split at hp'
              · simp at hp'
              · next n hm => exact ih n hp'

/-- A concrete one-page listing with a single bulletin link dated
2023-06-01. -/
def c6Env : CrawlEnv :=
  ⟨fun n => if n = 1 then some ⟨["x_20230601162000.xls"], none⟩ else none,
   fun s => s⟩

/-- Witness for C6: the pair enqueued from the concrete listing is not
strictly earlier than the cutoff. -/
theorem c6_witness : dateLt (⟨2023, 6, 1⟩ : Date) cutoff2023 = false := by
  have hm : ((⟨2023, 6, 1⟩ : Date), "x_20230601162000.xls") ∈ crawl c6Env 5 1 := by
    decide
  exact c6_no_date_below_cutoff_enqueued c6Env 5 1 _ hm

/-! ## Extraction lemmas -/

theorem rowHasMarker_false_iff (r : List Cell) :
    rowHasMarker r = false ↔ ∀ c ∈ r, c ≠ Cell.str markerStr := by
  simp [rowHasMarker, List.any_eq_true]

theorem rowHasMarker_true_iff (r : List Cell) :
    rowHasMarker r = true ↔ ∃ c ∈ r, c = Cell.str markerStr := by
  simp [rowHasMarker, List.any_eq_true]

theorem firstMarkerRow_eq_none_iff (rs : List (List Cell)) :
    firstMarkerRow rs = none ↔ ∀ r ∈ rs, rowHasMarker r = false := by
  induction rs with
  | nil => simp [firstMarkerRow]
  | cons r rs ih =>
    by_cases h : rowHasMarker r
    · simp [firstMarkerRow, h]
    · simp only [Bool.not_eq_true] at h
      simp [firstMarkerRow, h, ih]

theorem firstMarkerRow_spec (rs : List (List Cell)) :
    ∀ k, firstMarkerRow rs = some k →
      k < rs.length ∧ rowHasMarker (rs.getD k []) = true ∧
      ∀ j < k, rowHasMarker (rs.getD j []) = false := by
  induction rs with
  | nil => intro k h; simp [firstMarkerRow] at h
  | cons r rs ih =>
    intro k h
    by_cases hr : rowHasMarker r
    · simp only [firstMarkerRow, hr, if_true, Option.some.injEq] at h
      subst h
      exact ⟨by simp, by simpa using hr, fun j hj => absurd hj (by omega)⟩
    · simp only [firstMarkerRow, hr, Bool.false_eq_true, if_false,
        Option.map_eq_some'] at h
      rcases h with ⟨k', hk', rfl⟩
      rcases ih k' hk' with ⟨hlen, hmk, hprev⟩
      refine ⟨by simpa using hlen, by simpa using hmk, ?_⟩
      intro j hj
      cases j with
      | zero => simpa using Bool.not_eq_true _ ▸ hr
      | succ j' => simpa using hprev j' (by omega)

theorem extractFrom_ne_markerNotFound (now : Nat) (d : Option Date)
    (sheet : Sheet) (hIdx : Nat) :
    extractFrom now d sheet hIdx ≠ .error .markerNotFound := by
  intro h
  unfold extractFrom at h
  repeat' split at h
  all_goals simp_all

theorem extractFrom_ok_some {now : Nat} {d : Option Date} {sheet : Sheet}
    {hIdx : Nat} {out : List TRRow}
    (h : extractFrom now d sheet hIdx = .ok (some out)) :
    ∃ ci ni ii bi vi ti,
      colIdx (headerOf sheet hIdx) countCol = some ci ∧
      colIdx (headerOf sheet hIdx) nameCol = some ni ∧
      colIdx (headerOf sheet hIdx) idCol = some ii ∧
      colIdx (headerOf sheet hIdx) basisCol = some bi ∧
      colIdx (headerOf sheet hIdx) volCol = some vi ∧
      colIdx (headerOf sheet hIdx) totCol = some ti ∧
      out = (filteredOf sheet hIdx ci ni).map (buildRow now d ci ni ii bi vi ti) := by
  unfold extractFrom at h
  cases h1 : colIdx (headerOf sheet hIdx) countCol with
  | none => rw [h1] at h; cases h
  | some ci =>
  rw [h1] at h
  cases h2 : colIdx (headerOf sheet hIdx) nameCol with
  | none => simp only [h2] at h; cases h
  | some ni =>
  simp only [h2] at h
  by_cases he : (filteredOf sheet hIdx ci ni).isEmpty
  · rw [if_pos he] at h; cases h
  rw [if_neg he] at h
  cases h3 : colIdx (headerOf sheet hIdx) idCol with
  | none => simp only [h3] at h; cases h
  | some ii =>
  simp only [h3] at h
  cases h4 : colIdx (headerOf sheet hIdx) basisCol with
  | none => simp only [h4] at h; cases h
  | some bi =>
  simp only [h4] at h
  cases h5 : colIdx (headerOf sheet hIdx) volCol with
  | none => simp only [h5] at h; cases h
  | some vi =>
  simp only [h5] at h
  cases h6 : strictCol ((filteredOf sheet hIdx ci ni).map (fun r => r.getD vi Cell.na)) with
  | error s => simp only [h6] at h; cases h
  | ok _ =>
  simp only [h6] at h
  cases h7 : colIdx (headerOf sheet hIdx) totCol with
  | none => simp only [h7] at h; cases h
  | some ti =>
  simp only [h7] at h
  cases h8 : strictCol ((filteredOf sheet hIdx ci ni).map (fun r => r.getD ti Cell.na)) with
  | error s => simp only [h8] at h; cases h
  | ok _ =>
  simp only [h8] at h
  cases h9 : strictCol ((filteredOf sheet hIdx ci ni).map (fun r => r.getD ci Cell.na)) with
  | error s => simp only [h9] at h; cases h
  | ok _ =>
  simp only [h9, Except.ok.injEq, Option.some.injEq] at h
  exact ⟨ci, ni, ii, bi, vi, ti, rfl, rfl, rfl, rfl, rfl, rfl, h.symm⟩

theorem getD_mem {α : Type} (l : List α) (k : Nat) (d : α) (h : k < l.length) :
    l.getD k d ∈ l := by
  induction l generalizing k with
  | nil => simp at h
  | cons a l ih =>
    cases k with
    | zero => simp [List.getD]
    | succ k' => exact List.mem_cons_of_mem a (ih k' (by simpa using h))

theorem getData_ok_some {now : Nat} {d : Option Date} {file : Option Sheet}
    {out : List TRRow} (h : getData now d file = .ok (some out)) :
    ∃ sheet k, file = some sheet ∧ firstMarkerRow sheet.rows = some k ∧
      extractFrom now d sheet (k + 1) = .ok (some out) := by
  cases file with
  | none => simp [getData] at h
  | some sheet =>
    simp only [getData] at h
    cases hm : firstMarkerRow sheet.rows with
    | none => rw [hm] at h; cases h
    | some k =>
      rw [hm] at h
      exact ⟨sheet, k, rfl, hm, h⟩

/-! ## Claim C7 -/

/-- Claim C7: with the downloaded file present, extraction raises the
missing-marker data-format error iff no cell of the sheet equals the
marker string; when some cell matches, the row below the first matching
row becomes the header row for the re-read and no such error is raised. -/
theorem c7_marker_scan_iff (now : Nat) (d : Option Date) (sheet : Sheet) :
    (getData now d (some sheet) = .error .markerNotFound ↔
      ∀ r ∈ sheet.rows, ∀ c ∈ r, c ≠ Cell.str markerStr) ∧
    (∀ k, firstMarkerRow sheet.rows = some k →
      rowHasMarker (sheet.rows.getD k []) = true ∧
      (∀ j < k, rowHasMarker (sheet.rows.getD j []) = false) ∧
      getData now d (some sheet) = extractFrom now d sheet (k + 1) ∧
      getData now d (some sheet) ≠ .error .markerNotFound) := by
  constructor
  · constructor
    · intro h
      simp only [getData] at h
      cases hm : firstMarkerRow sheet.rows with
      | none =>
        intro r hr c hc
        have hfalse := (firstMarkerRow_eq_none_iff sheet.rows).mp hm r hr
        exact (rowHasMarker_false_iff r).mp hfalse c hc
      | some k =>
        rw [hm] at h
        exact absurd h (extractFrom_ne_markerNotFound now d sheet (k + 1))
    · intro hall
      simp only [getData]
      cases hm : firstMarkerRow sheet.rows with
      | none => rfl
      | some k =>
        exfalso
        rcases firstMarkerRow_spec sheet.rows k hm with ⟨hlen, hmk, _⟩
        rcases (rowHasMarker_true_iff _).mp hmk with ⟨c, hc, rfl⟩
        exact hall _ (getD_mem sheet.rows k [] hlen) _ hc rfl
  · intro k hm
    rcases firstMarkerRow_spec sheet.rows k hm with ⟨hlen, hmk, hprev⟩
    refine ⟨hmk, hprev, ?_, ?_⟩
    · simp only [getData]; rw [hm]
    · simp only [getData]; rw [hm]
      exact extractFrom_ne_markerNotFound now d sheet (k + 1)

/-- Witness for C7: on the concrete sheet the marker sits in row 0, so
row 1 is used as the header and extraction equals `extractFrom` at 1. -/
theorem c7_witness :
    rowHasMarker (exSheetGood.rows.getD 0 []) = true ∧
    getData 0 (some d0) (some exSheetGood) = extractFrom 0 (some d0) exSheetGood 1 := by
  have h := (c7_marker_scan_iff 0 (some d0) exSheetGood).2 0 rfl
  exact ⟨h.1, h.2.2.1⟩

/-! ## Claim C3 -/

/-- A bulletin sheet whose single data row has an empty-string instrument
name (a non-missing pandas value) and a positive contract count. -/
def c3Sheet : Sheet :=
  ⟨[[Cell.str markerStr],
    exHeader,
    [Cell.str "A100ANS060F", Cell.str "", Cell.str "базис",
     Cell.num 10, Cell.num 100, Cell.num 5]]⟩

/-- The row extracted from `c3Sheet`: its name is the empty string. -/
def c3OutRow : TRRow :=
  { exchange_product_id := Cell.str "A100ANS060F"
    exchange_product_name := Cell.str ""
    oil_id := Cell.str "A100"
    delivery_basis_id := Cell.str "ANS"
    delivery_basis_name := Cell.str "базис"
    delivery_type_id := Cell.str "F"
    volume := Cell.num 10
    total := Cell.num 100
    count := Cell.num 5
    date := some d0
    created_on := 0
    updated_on := 0 }

/-- Counterexample for C3: `notna` keeps empty-string names, so the
extractor outputs a row whose `exchange_product_name` is the empty
string, contradicting "non-empty exchange_product_name". -/
theorem c3_counterexample :
    getData 0 (some d0) (some c3Sheet) = .ok (some [c3OutRow]) ∧
    c3OutRow.exchange_product_name = Cell.str "" := ⟨rfl, rfl⟩

/-- Claim C3 (amended): every extracted row has a positive numeric
contract count and a non-missing (`notna`) instrument name — but the name
need not be a non-empty string. -/
theorem c3_amended_count_pos_name_notna (now : Nat) (d : Option Date)
    (file : Option Sheet) (out : List TRRow)
    (h : getData now d file = .ok (some out)) :
    ∀ r ∈ out, (∃ q, r.count = Cell.num q ∧ 0 < q) ∧
      r.exchange_product_name ≠ Cell.na := by
  rcases getData_ok_some h with ⟨sheet, k, rfl, hm, hex⟩
  rcases extractFrom_ok_some hex with ⟨ci, ni, ii, bi, vi, ti, hc, hn, hi, hb, hv, ht, rfl⟩
  intro r hr
  rcases List.mem_map.mp hr with ⟨src, hsrc, rfl⟩
  simp only [filteredOf] at hsrc
  have hpf := (List.mem_filter.mp hsrc).2
  simp only [passFilter, Bool.and_eq_true] at hpf
  obtain ⟨hpos, hna⟩ := hpf
  constructor
  · cases hcell : src.getD ci Cell.na with
    | num q =>
      refine ⟨q, ?_, ?_⟩
      · rw [show (buildRow now d ci ni ii bi vi ti src).count =
            toNumCoerce (src.getD ci Cell.na) from rfl, hcell]
        rfl
      · rw [hcell] at hpos; simpa [cellPos] using hpos
    | na => rw [hcell] at hpos; simp [cellPos] at hpos
    | str s => rw [hcell] at hpos; simp [cellPos] at hpos
  · intro hna'
    simp only [buildRow] at hna'
    rw [hna'] at hna
    simp [cellNotNa] at hna

/-- Witness for C3 at a concrete extraction. -/
theorem c3_witness :
    (∃ q, exRowGood.count = Cell.num q ∧ 0 < q) ∧
    exRowGood.exchange_product_name ≠ Cell.na :=
  c3_amended_count_pos_name_notna 0 (some d0) (some exSheetGood) [exRowGood]
    rfl exRowGood (by simp)

/-! ## Claim C9 -/

/-- Claim C9: for every extracted row with string instrument code `s`,
`oil_id` is its first four characters and `delivery_basis_id` its
characters 4–7; when `s` is non-empty, `delivery_type_id` is its last
character. -/
theorem c9_id_substring_slices (now : Nat) (d : Option Date)
    (file : Option Sheet) (out : List TRRow)
    (h : getData now d file = .ok (some out)) :
    ∀ r ∈ out, ∀ s, r.exchange_product_id = Cell.str s →
      r.oil_id = Cell.str (s.take 4) ∧
      r.delivery_basis_id = Cell.str ((s.drop 4).take 3) ∧
      (s ≠ "" → r.delivery_type_id = Cell.str (s.takeRight 1)) := by
  rcases getData_ok_some h with ⟨sheet, k, rfl, hm, hex⟩
  rcases extractFrom_ok_some hex with ⟨ci, ni, ii, bi, vi, ti, hc, hn, hi, hb, hv, ht, rfl⟩
  intro r hr s hs
  rcases List.mem_map.mp hr with ⟨src, hsrc, rfl⟩
  simp only [buildRow] at hs ⊢
  rw [hs]
  refine ⟨rfl, rfl, ?_⟩
  intro hne
  have hemp : s.isEmpty = false := by
    cases hit : s.isEmpty with
    | false => rfl
    | true => exact absurd ((String.isEmpty_iff s).mp hit) hne
  simp [strLast, hemp]

/-- Witness for C9 at a concrete extraction. -/
theorem c9_witness :
    exRowGood.oil_id = Cell.str ("A100ANS060F".take 4) ∧
    exRowGood.delivery_basis_id = Cell.str (("A100ANS060F".drop 4).take 3) ∧
    ("A100ANS060F" ≠ "" → exRowGood.delivery_type_id = Cell.str ("A100ANS060F".takeRight 1)) := by
  have h := c9_id_substring_slices 0 (some d0) (some exSheetGood) [exRowGood]
    rfl exRowGood (by simp) "A100ANS060F" rfl
  exact ⟨h.1, h.2.1, fun _ => h.2.2 (by decide)⟩

/-! ## Claim C8 -/

theorem getD_of_len_le {α : Type} (l : List α) (i : Nat) (d : α)
    (h : l.length ≤ i) : l.getD i d = d := by
  induction l generalizing i with
  | nil => cases i <;> rfl
  | cons a l ih =>
    cases i with
    | zero => simp at h
    | succ i' => exact ih i' (by simpa using h)

theorem getD_set_self {α : Type} (l : List α) (i : Nat) (x d : α)
    (h : i < l.length) : (l.set i x).getD i d = x := by
  induction l generalizing i with
  | nil => simp at h
  | cons a l ih =>
    cases i with
    | zero => rfl
    | succ i' => exact ih i' (by simpa using h)

theorem strictCol_error_of_mem {cells : List Cell} {c : Cell} {s : String}
    (hc : c ∈ cells) (he : toNumStrict1 c = .error s) :
    ∃ e, strictCol cells = .error e := by
  induction cells with
  | nil => simp at hc
  | cons c0 cs ih =>
    cases h0 : toNumStrict1 c0 with
    | error e0 => exact ⟨e0, by simp [strictCol, h0]⟩
    | ok c0' =>
      rcases List.mem_cons.mp hc with rfl | hc'
      · rw [he] at h0; cases h0
      · rcases ih hc' with ⟨e, hcs⟩
        exact ⟨e, by simp [strictCol, h0, hcs]⟩

/-- Claim C8: numeric coercion in `get_data` is asymmetric.  A data row
whose contract-count cell is a non-numeric string is merely dropped: its
lenient coercion yields a missing value, which fails the positivity
filter, so the row never reaches `filtered_data`.  By contrast, a row
that survives the filter but carries a non-coercible volume cell, or a
non-coercible total cell, makes the strict column coercion, and hence
the whole extraction, fail. -/
theorem c8_asymmetric_numeric_coercion :
    (∀ (sheet : Sheet) (hIdx ci ni : Nat) (r : List Cell) (s : String),
      r.getD ci Cell.na = Cell.str s → parseNum s = none →
      r.set ci (toNumCoerce (r.getD ci Cell.na)) ∉ filteredOf sheet hIdx ci ni) ∧
    (∀ (now : Nat) (d : Option Date) (sheet : Sheet) (hIdx ci ni ii bi vi : Nat),
      colIdx (headerOf sheet hIdx) countCol = some ci →
      colIdx (headerOf sheet hIdx) nameCol = some ni →
      colIdx (headerOf sheet hIdx) idCol = some ii →
      colIdx (headerOf sheet hIdx) basisCol = some bi →
      colIdx (headerOf sheet hIdx) volCol = some vi →
      (∃ r ∈ filteredOf sheet hIdx ci ni,
        ∃ s, r.getD vi Cell.na = Cell.str s ∧ parseNum s = none) →
      ∃ e, extractFrom now d sheet hIdx = .error (.numError e)) ∧
    (∀ (now : Nat) (d : Option Date) (sheet : Sheet) (hIdx ci ni ii bi vi ti : Nat),
      colIdx (headerOf sheet hIdx) countCol = some ci →
      colIdx (headerOf sheet hIdx) nameCol = some ni →
      colIdx (headerOf sheet hIdx) idCol = some ii →
      colIdx (headerOf sheet hIdx) basisCol = some bi →
      colIdx (headerOf sheet hIdx) volCol = some vi →
      colIdx (headerOf sheet hIdx) totCol = some ti →
      (∃ r ∈ filteredOf sheet hIdx ci ni,
        ∃ s, r.getD ti Cell.na = Cell.str s ∧ parseNum s = none) →
      ∃ e, extractFrom now d sheet hIdx = .error (.numError e)) := by
  refine ⟨?_, ?_, ?_⟩
  · intro sheet hIdx ci ni r s hcell hparse hmem
    have hlen : ci < r.length := by
      by_contra hge
      push_neg at hge
      rw [getD_of_len_le r ci Cell.na hge] at hcell
      cases hcell
    have hget : (r.set ci (toNumCoerce (r.getD ci Cell.na))).getD ci Cell.na =
        toNumCoerce (r.getD ci Cell.na) := getD_set_self r ci _ Cell.na hlen
    have hcoerce : toNumCoerce (r.getD ci Cell.na) = Cell.na := by
      rw [hcell]; simp [toNumCoerce, hparse]
    unfold filteredOf at hmem
    have hpf := (List.mem_filter.mp hmem).2
    simp only [passFilter, Bool.and_eq_true] at hpf
    rw [hget, hcoerce] at hpf
    simp [cellPos] at hpf
  · intro now d sheet hIdx ci ni ii bi vi hc hn hi hb hv hbad
    rcases hbad with ⟨r, hr, s, hvol, hparse⟩
    have hne : (filteredOf sheet hIdx ci ni).isEmpty = false := by
      cases hfe : (filteredOf sheet hIdx ci ni).isEmpty with
      | false => rfl
      | true =>
        rw [List.isEmpty_iff.mp hfe] at hr
        simp at hr
    have hcellmem : r.getD vi Cell.na ∈
        (filteredOf sheet hIdx ci ni).map (fun r => r.getD vi Cell.na) :=
      List.mem_map_of_mem _ hr
    have hstrict : toNumStrict1 (r.getD vi Cell.na) = .error s := by
      rw [hvol]; simp [toNumStrict1, hparse]
    rcases strictCol_error_of_mem hcellmem hstrict with ⟨e, hcol⟩
    refine ⟨e, ?_⟩
    simp only [extractFrom, hc, hn, hne, Bool.false_eq_true, if_false,
      hi, hb, hv, hcol]
  · intro now d sheet hIdx ci ni ii bi vi ti hc hn hi hb hv ht hbad
    rcases hbad with ⟨r, hr, s, htot, hparse⟩
    have hne : (filteredOf sheet hIdx ci ni).isEmpty = false := by
      cases hfe : (filteredOf sheet hIdx ci ni).isEmpty with
      | false => rfl
      | true =>
        rw [List.isEmpty_iff.mp hfe] at hr
        simp at hr
    cases hvcol : strictCol ((filteredOf sheet hIdx ci ni).map
        (fun r => r.getD vi Cell.na)) with
    | error e =>
      refine ⟨e, ?_⟩
      simp only [extractFrom, hc, hn, hne, Bool.false_eq_true, if_false,
        hi, hb, hv, hvcol]
    | ok vl =>
      have hcellmem : r.getD ti Cell.na ∈
          (filteredOf sheet hIdx ci ni).map (fun r => r.getD ti Cell.na) :=
        List.mem_map_of_mem _ hr
      have hstrict : toNumStrict1 (r.getD ti Cell.na) = .error s := by
        rw [htot]; simp [toNumStrict1, hparse]
      rcases strictCol_error_of_mem hcellmem hstrict with ⟨e, hcol⟩
      refine ⟨e, ?_⟩
      simp only [extractFrom, hc, hn, hne, Bool.false_eq_true, if_false,
        hi, hb, hv, hvcol, ht, hcol]

/-- A bulletin sheet whose single surviving data row carries a
non-coercible volume cell. -/
def c8Sheet : Sheet :=
  ⟨[[Cell.str markerStr],
    exHeader,
    [Cell.str "A100ANS060F", Cell.str "Бензин", Cell.str "б",
     Cell.str "abc", Cell.num 100, Cell.num 5]]⟩

/-- A data row whose contract-count cell is a non-numeric string. -/
def c8BadCountRow : List Cell :=
  [Cell.str "A100ANS060F", Cell.str "Бензин", Cell.str "б",
   Cell.num 1, Cell.num 2, Cell.str "abc"]

/-- A bulletin sheet whose single surviving data row has a coercible
volume cell but a non-coercible total cell. -/
def c8TotSheet : Sheet :=
  ⟨[[Cell.str markerStr],
    exHeader,
    [Cell.str "A100ANS060F", Cell.str "Бензин", Cell.str "б",
     Cell.num 10, Cell.str "xyz", Cell.num 5]]⟩

/-- Witness for C8: the bad-count row is excluded from the filtered
frame, while the bad-volume sheet and the bad-total sheet each fail
extraction with a numeric error. -/
theorem c8_witness :
    (c8BadCountRow.set 5 (toNumCoerce (c8BadCountRow.getD 5 Cell.na)) ∉
      filteredOf emptySheet 1 5 1) ∧
    (∃ e, extractFrom 0 (some d0) c8Sheet 1 = .error (.numError e)) ∧
    (∃ e, extractFrom 0 (some d0) c8TotSheet 1 = .error (.numError e)) := by
  refine ⟨?_, ?_, ?_⟩
  · exact c8_asymmetric_numeric_coercion.1 emptySheet 1 5 1 c8BadCountRow "abc" rfl rfl
  · refine c8_asymmetric_numeric_coercion.2.1 0 (some d0) c8Sheet 1 5 1 0 2 3
      rfl rfl rfl rfl rfl ?_
    refine ⟨[Cell.str "A100ANS060F", Cell.str "Бензин", Cell.str "б",
      Cell.str "abc", Cell.num 100, Cell.num 5], ?_, "abc", rfl, rfl⟩
    decide
  · refine c8_asymmetric_numeric_coercion.2.2 0 (some d0) c8TotSheet 1 5 1 0 2 3 4
      rfl rfl rfl rfl rfl rfl ?_
    refine ⟨[Cell.str "A100ANS060F", Cell.str "Бензин", Cell.str "б",
      Cell.num 10, Cell.str "xyz", Cell.num 5], ?_, "xyz", rfl, rfl⟩
    decide

/-! ## Worker fixtures -/

/-- Environment whose every file download fails with HTTP 404. -/
def env404 : WorkerEnv :=
  ⟨⟨fun _ => 404, fun _ => emptySheet⟩, ⟨fun _ => false, false⟩, 0⟩

/-- Environment whose every download succeeds with the
marker-and-header-only sheet as body. -/
def env200e : WorkerEnv :=
  ⟨⟨fun _ => 200, fun _ => emptySheet⟩, ⟨fun _ => false, false⟩, 0⟩

/-- The initially empty file store. -/
def fs0 : String → Option Sheet := fun _ => none

/-! ## Claim C1 -/

/-- Counterexample for C1: on a failed (404) download the worker still
attempts record extraction for that item — `download_file` swallows the
failure and `process_files` calls `get_data` unconditionally. -/
theorem c1_counterexample :
    WEv.downloadFailed 404 ∈
      (processFiles env404 [(some d0, some "u"), (none, none)] fs0 []).events ∧
    WEv.extractionAttempted (fileNameOf (some d0)) ∈
      (processFiles env404 [(some d0, some "u"), (none, none)] fs0 []).events := by
  constructor <;> decide

/-- Claim C1 (amended): on a non-200 download the failure is only
logged and no file is written, but record extraction is still attempted
for the item (yielding the no-data result when no file exists for that
date); the persister is then invoked with that result, nothing is
persisted, and the worker proceeds to the next queued item without
propagating the failure. -/
theorem c1_amended_failed_download_still_extracts (env : WorkerEnv)
    (d : Option Date) (url : String) (rest : List (Option Date × Option String))
    (fs : String → Option Sheet) (db : List TRRow)
    (hst : ¬env.net.status url = 200) (hfs : fs (fileNameOf d) = none) :
    processFiles env ((d, some url) :: rest) fs db =
      ⟨WEv.downloadFailed (env.net.status url) ::
         WEv.extractionAttempted (fileNameOf d) ::
         WEv.persistInvoked none :: (processFiles env rest fs db).events,
       (processFiles env rest fs db).fs,
       (processFiles env rest fs db).db⟩ := by
  simp [processFiles, downloadFile, sessionGet, hst, hfs, getData, saveDataToDb]

/-- Witness for C1 at a concrete failed download. -/
theorem c1_witness :
    processFiles env404 [(some d0, some "u")] fs0 [] =
      ⟨[WEv.downloadFailed 404, WEv.extractionAttempted (fileNameOf (some d0)),
        WEv.persistInvoked none], fs0, []⟩ := by
  have h := c1_amended_failed_download_still_extracts env404 (some d0) "u" [] fs0 []
    (by decide) rfl
  simpa using h

/-! ## Claim C2 -/

/-- Counterexample for C2: when extraction returns the no-data result the
persister is not skipped — `process_files` passes the `None` frame
straight to `save_data_to_db`. -/
theorem c2_counterexample :
    getData 0 (some d0) (some emptySheet) = .ok none ∧
    WEv.persistInvoked none ∈
      (processFiles env200e [(some d0, some "u"), (none, none)] fs0 []).events := by
  exact ⟨rfl, by decide⟩

/-- Claim C2 (amended): when extraction yields the no-data result the
worker still invokes the persister with it; the persister's internal
exception handling rolls back, so nothing is persisted, and the worker
proceeds to the next queued item without propagating anything. -/
theorem c2_amended_no_data_still_invokes_persister (env : WorkerEnv)
    (d : Option Date) (url : String) (rest : List (Option Date × Option String))
    (fs : String → Option Sheet) (db : List TRRow)
    (hst : env.net.status url = 200)
    (hnd : getData env.now d (some (env.net.body url)) = .ok none) :
    processFiles env ((d, some url) :: rest) fs db =
      ⟨WEv.downloadSaved (fileNameOf d) ::
         WEv.extractionAttempted (fileNameOf d) ::
         WEv.persistInvoked none ::
         (processFiles env rest (fsUpdate fs (fileNameOf d) (env.net.body url)) db).events,
       (processFiles env rest (fsUpdate fs (fileNameOf d) (env.net.body url)) db).fs,
       (processFiles env rest (fsUpdate fs (fileNameOf d) (env.net.body url)) db).db⟩ := by
  have hlook : fsUpdate fs (fileNameOf d) (env.net.body url) (fileNameOf d) =
      some (env.net.body url) := by simp [fsUpdate]
  simp [processFiles, downloadFile, sessionGet, hst, fileNameOf, hlook, hnd,
    saveDataToDb, fsUpdate]

/-- Witness for C2 at a concrete no-data extraction. -/
theorem c2_witness :
    processFiles env200e [(some d0, some "u")] fs0 [] =
      ⟨[WEv.downloadSaved (fileNameOf (some d0)),
        WEv.extractionAttempted (fileNameOf (some d0)),
        WEv.persistInvoked none],
       fsUpdate fs0 (fileNameOf (some d0)) emptySheet, []⟩ := by
  have h := c2_amended_no_data_still_invokes_persister env200e (some d0) "u" [] fs0 []
    rfl rfl
  simpa using h

/-! ## Claim C4 -/

/-- Claim C4: every file the worker run writes (any name whose stored
content changed) is named `data/oil_bulletin<ISO-date>.xls` for the trade
date of some dequeued item, i.e. the stored name is a deterministic
function of the item's trade date; and the swapped-argument
`download_file(session, file_link, trade_date)` call of
`parsing_trading_on_file` raises inside `session.get` before writing
anything. -/
theorem c4_stored_names_date_derived :
    (∀ (env : WorkerEnv) (items : List (Option Date × Option String))
       (fs : String → Option Sheet) (db : List TRRow) (name : String),
       (processFiles env items fs db).fs name ≠ fs name →
       ∃ d url, (d, some url) ∈ items ∧ name = fileNameOf d) ∧
    (∀ (net : NetEnv) (link : String) (d : Date),
       downloadFile net (.strV link) (.dateV (some d)) = .error ()) := by
  constructor
  · intro env items
    induction items with
    | nil => intro fs db name hne; exact absurd rfl hne
    | cons item rest ih =>
      intro fs db name hne
      obtain ⟨d, link⟩ := item
      cases link with
      | none => exact absurd rfl hne
      | some url =>
        simp only [processFiles, downloadFile, sessionGet, fileNameOf] at hne
        by_cases hst : env.net.status url = 200
        · simp only [hst, reduceIte] at hne
          cases hgd : getData env.now d
              (fsUpdate fs ("data/oil_bulletin" ++ pyFStr (PyVal.dateV d) ++ ".xls")
                (env.net.body url)
                ("data/oil_bulletin" ++ pyFStr (PyVal.dateV d) ++ ".xls")) with
          | error e =>
            rw [hgd] at hne
            by_cases hn : name = fileNameOf d
            · exact ⟨d, url, by simp, hn⟩
            · exfalso
              apply hne
              simp only [fsUpdate]
              rw [if_neg (by simpa [fileNameOf] using hn)]
          | ok frame =>
            rw [hgd] at hne
            by_cases hn : name = fileNameOf d
            · exact ⟨d, url, by simp, hn⟩
            · have hfs' : fsUpdate fs
                  ("data/oil_bulletin" ++ pyFStr (PyVal.dateV d) ++ ".xls")
                  (env.net.body url) name = fs name := by
                simp only [fsUpdate]
                rw [if_neg (by simpa [fileNameOf] using hn)]
              by_cases htail : (processFiles env rest
                  (fsUpdate fs ("data/oil_bulletin" ++ pyFStr (PyVal.dateV d) ++ ".xls")
                    (env.net.body url))
                  (saveDataToDb env.save frame db).1).fs name =
                  fsUpdate fs ("data/oil_bulletin" ++ pyFStr (PyVal.dateV d) ++ ".xls")
                    (env.net.body url) name
              · exact absurd (htail.trans hfs') hne
              · rcases ih _ _ name htail with ⟨d', url', hmem, heq⟩
                exact ⟨d', url', List.mem_cons_of_mem _ hmem, heq⟩
        · simp only [hst, reduceIte] at hne
          cases hgd : getData env.now d
              (fs ("data/oil_bulletin" ++ pyFStr (PyVal.dateV d) ++ ".xls")) with
          | error e =>
            rw [hgd] at hne
            exact absurd rfl hne
          | ok frame =>
            rw [hgd] at hne
            by_cases htail : (processFiles env rest fs
                (saveDataToDb env.save frame db).1).fs name = fs name
            · exact absurd htail hne
            · rcases ih _ _ name htail with ⟨d', url', hmem, heq⟩
              exact ⟨d', url', List.mem_cons_of_mem _ hmem, heq⟩
  · intro net link d
    rfl

/-- Witness for C4: in the concrete run the one changed file name is the
date-derived name of the dequeued item. -/
theorem c4_witness :
    ∃ d url, (d, some url) ∈ [((some d0 : Option Date), some "u"), (none, none)] ∧
      "data/oil_bulletin2023-06-01.xls" = fileNameOf d := by
  exact c4_stored_names_date_derived.1 env200e [(some d0, some "u"), (none, none)]
    fs0 [] "data/oil_bulletin2023-06-01.xls" (by decide)
